import Mathlib

/-!
Verification development for the `radar-datatree` repository
(`src/notebooks/demo_functions.py`).

The Python functions are shallowly embedded in Lean:

* numpy float arrays become lists of real numbers; IEEE NaN is modelled by
  `Option ℝ` (`none` = NaN) where NaN propagation matters;
* `xr.DataArray` / `xr.Dataset` / `xr.DataTree` become Lean structures carrying
  exactly the fields the functions touch (values, dims, coordinates, attrs,
  group paths);
* `datetime` values become a record of calendar fields; `vcp_time` /
  `datetime64` coordinates become rationals (seconds) or integers, which is
  faithful because those values are discrete;
* code that can raise returns `Except PyErr`; the azimuthal means, medians and
  sorts are written out structurally so that concrete runs reduce inside the
  kernel wherever the corresponding Python is executable.

CPython string primitives (`str.split`, `str.startswith`, lexicographic `<=`)
are re-implemented over `List Char` because the core `String` versions do not
reduce in the kernel; they agree with CPython on code points.
-/

/-! ## String helpers (kernel-reducible models of the CPython string ops) -/

/-- Model of `s.startswith(p)`: the char list `s` starts with the char list `p`. -/
def listStarts : List Char → List Char → Bool
  | _, [] => true
  | [], _ :: _ => false
  | x :: xs, y :: ys => x = y && listStarts xs ys

/-- Model of `str.startswith`. -/
def strStarts (s p : String) : Bool := listStarts s.toList p.toList

/-- Model of `str.split(sep)` for a one-character separator (CPython:
`"".split(c) == [""]`, and every separator occurrence opens a new field). -/
def splitOnChar (c : Char) : List Char → List (List Char)
  | [] => [[]]
  | x :: xs =>
    let r := splitOnChar c xs
    if x = c then [] :: r
    else
      match r with
      | [] => [[x]]
      | y :: ys => (x :: y) :: ys

/-- Lexicographic comparison of char lists by code point, as CPython compares
strings. -/
def charListLe : List Char → List Char → Bool
  | [], _ => true
  | _ :: _, [] => false
  | x :: xs, y :: ys => if x.toNat = y.toNat then charListLe xs ys else decide (x.toNat < y.toNat)

/-- Model of CPython string `<=` (used by `sorted` on S3 paths). -/
def strLe (a b : String) : Bool := charListLe a.toList b.toList

/-- Drop every copy of `c` from both ends of a char list: `str.strip(c)`. -/
def trimChar (c : Char) (l : List Char) : List Char :=
  ((l.dropWhile (· = c)).reverse.dropWhile (· = c)).reverse

/-- Intercalate a separator char between char-list fields (inverse of split). -/
def joinChar (c : Char) : List (List Char) → List Char
  | [] => []
  | [x] => x
  | x :: y :: tl => x ++ c :: joinChar c (y :: tl)

/-- Model of `path.split("/")[-1]`. -/
def lastPart (s : String) : String := String.mk ((splitOnChar '/' s.toList).getLastD [])

/-- Model of the parent directory of an S3 key (everything before the final
`/`), as `fs.ls` reports children of exactly this directory. -/
def parentDir (s : String) : String :=
  String.mk (joinChar '/' ((splitOnChar '/' s.toList).dropLast))

/-- Python `str.strip("/")` followed by `split("/")`, as strings. -/
def pathParts (p : String) : List String :=
  (splitOnChar '/' (trimChar '/' p.toList)).map (fun cs => String.mk cs)

/-- Association-list lookup keyed by strings: `d[k]` / `d.get(k)`. -/
def lookupStr (l : List (String × α)) (k : String) : Option α :=
  (l.find? (fun p => p.1 == k)).map (·.2)

/-! ## Python-level error values -/

/-- The only exception the embedded functions raise themselves. -/
inductive PyErr where
  | valueError (msg : String)
deriving DecidableEq

/-- Whether a Python call raised. -/
def isErr : Except PyErr α → Bool
  | .error _ => true
  | .ok _ => false

/-! ## NaN-aware values and reductions -/

/-- A numpy float cell; `none` models IEEE NaN. -/
abbrev Value := Option ℝ

/-- Elementwise numpy arithmetic propagates NaN. -/
def vmap (f : ℝ → ℝ) (v : Value) : Value := v.map f

/-- Model of `mean(..., skipna=True)`: NaN entries are dropped; the mean of an
empty collection is NaN. -/
noncomputable def meanSkipna (xs : List Value) : Value :=
  let v := xs.reduceOption
  if v.length = 0 then none else some (v.sum / (v.length : ℝ))

/-! ## rain_depth (demo_functions.py lines 12-86) -/

/-- The reflectivity `DataArray` as `rain_depth` reads it: per-timestep dBZ
values (elementwise in any other dims), the dimension names, and the
`vcp_time` coordinate in seconds since epoch (datetime64 values are discrete,
so rationals model them exactly; `total_seconds()` divides them by 3600 below). -/
structure RainArr where
  data : List ℝ
  dims : List String
  vcp_time : List ℚ

/-- The `DataArray` returned by `rain_depth` (values, `.name`, `.attrs`). -/
structure RainResult where
  data : List Value
  name : String
  attrs : List (String × String)

/-- Consecutive differences: `x.diff(dim)`. -/
def pairwiseDiffs : List ℚ → List ℚ
  | x :: y :: tl => (y - x) :: pairwiseDiffs (y :: tl)
  | _ => []

/-- Insertion into a sorted list (ascending). -/
def insertRat (x : ℚ) : List ℚ → List ℚ
  | [] => [x]
  | y :: ys => if x ≤ y then x :: y :: ys else y :: insertRat x ys

/-- Full sort, as `np.median` sorts its input. -/
def sortRat (l : List ℚ) : List ℚ := l.foldr insertRat []

/-- Model of `np.median`: middle of the sorted list, or the average of the two
middles; `none` (NaN) on an empty list. -/
def npMedian (l : List ℚ) : Option ℚ :=
  let s := sortRat l
  let n := s.length
  if n = 0 then none
  else if n % 2 = 1 then some (s.getD (n / 2) 0)
  else some ((s.getD (n / 2 - 1) 0 + s.getD (n / 2) 0) / 2)

/-- The rain rate `R = (Z_linear / a) ** (1 / b)` at one reflectivity value. -/
noncomputable def rain_rate_of (a b z : ℝ) : ℝ := ((10:ℝ) ^ (z / 10) / a) ^ ((1:ℝ) / b)

/-- The constant attrs `rain_depth` assigns to its result (the `a=..., b=...`
interpolation inside the description string is elided: Lean cannot print
reals, and no claim mentions it). -/
def rainAttrs : List (String × String) :=
  [("units", "mm"),
   ("long_name", "precipitation depth per timestep"),
   ("description", "Estimated using Z-R relationship")]

/-- Default of parameter `a` in `rain_depth` (Marshall-Palmer 1948). -/
noncomputable def rain_depth_default_a : ℝ := 200.0

/-- Default of parameter `b` in `rain_depth` (Marshall-Palmer 1948). -/
noncomputable def rain_depth_default_b : ℝ := 1.6

/-- Embedding of `rain_depth`. The `print` calls of the `t=None` branch are
pure output and are elided. The Python computes `z_lin` and `rain_rate`
before inspecting `t`; both orders denote the same function. -/
noncomputable def rain_depth (z : RainArr) (a b : ℝ) (t : Option ℝ) :
    Except PyErr RainResult :=
  let z_lin := z.data.map (fun x => (10:ℝ) ^ (x / 10))
  let rain_rate := z_lin.map (fun zl => (zl / a) ^ ((1:ℝ) / b))
  match t with
  | some tv =>
      .ok { data := rain_rate.map (fun r => some (r * (tv / 60))),
            name := "precip_depth", attrs := rainAttrs }
  | none =>
      if "vcp_time" ∈ z.dims then
        let time_diffs := (pairwiseDiffs z.vcp_time).map (fun d => d / 3600)
        let median_dt_hours := npMedian time_diffs
        .ok { data := rain_rate.map (fun r => median_dt_hours.map (fun m => r * (m : ℝ))),
              name := "precip_depth", attrs := rainAttrs }
      else
        .error (.valueError
          "DataArray must have 'vcp_time' dimension or provide integration time 't'")

/-- The Z-R depth formula exactly as claim C3 words it:
`depth = ((10^(z/10)) / a)^(1/b) * (t / 60)`. -/
noncomputable def zr_depth_closed (z a b t : ℝ) : ℝ :=
  ((10:ℝ) ^ (z / 10) / a) ^ ((1:ℝ) / b) * (t / 60)

/-! ## compute_qvp (demo_functions.py lines 89-120) -/

/-- One data variable of the sweep dataset: its attrs and its values laid out
range-major (`data[r]` = the values across azimuth at range gate `r`,
elementwise in `vcp_time`). -/
structure VarArr where
  attrs : List (String × String)
  data : List (List Value)

/-- The sweep `Dataset` as `compute_qvp` reads it: the named data variables,
the `sweep_fixed_angle` variable (degrees) and the `range` coordinate (m). -/
structure RadarDS where
  vars : List (String × VarArr)
  sweep_fixed_angle : List Value
  range : List ℝ

/-- The `DataArray` `compute_qvp` returns: its name, the name of the dimension
that carried `range` before the final rename, the coordinate values of that
dimension, and the averaged profile. -/
structure QvpArr where
  name : String
  dimName : String
  coordVals : List Value
  data : List Value

/-- Embedding of `compute_qvp`. Looking up a missing variable or a missing
`units` attribute is a Python `KeyError`; the claims only concern present
keys, and the embedding returns `none` there. -/
noncomputable def compute_qvp (ds : RadarDS) (var : String) : Option QvpArr :=
  match lookupStr ds.vars var with
  | none => none
  | some va =>
    match lookupStr va.attrs "units" with
    | none => none
    | some units =>
      let qvpData :=
        if strStarts units "dB" then
          (va.data.map (fun row => meanSkipna (row.map (vmap (fun x => (10:ℝ) ^ (x / 10)))))).map
            (vmap (fun m => 10 * Real.logb 10 m))
        else
          va.data.map (fun row => meanSkipna row)
      let sinEl := vmap (fun ang => Real.sin (ang * Real.pi / 180)) (meanSkipna ds.sweep_fixed_angle)
      let newCoords := ds.range.map (fun r => sinEl.map (fun s => r * s / 1000))
      some { name := "qvp_" ++ var, dimName := "height",
             coordVals := newCoords, data := qvpData }

/-- The dB-branch cell formula exactly as claim C2 words it: 10·log10 of the
NaN-skipping azimuthal mean of `10^(value/10)`. -/
noncomputable def qvp_db_cell (row : List Value) : Value :=
  vmap (fun m => 10 * Real.logb 10 m)
    (meanSkipna (row.map (vmap (fun x => (10:ℝ) ^ (x / 10)))))

/-- The non-dB cell formula of claim C2: the plain azimuthal mean. -/
noncomputable def qvp_plain_cell (row : List Value) : Value := meanSkipna row

/-- The height formula of claim C10:
`range * sin(mean(sweep_fixed_angle) * π/180) / 1000`. -/
noncomputable def height_of (meanAngle : Value) (r : ℝ) : Value :=
  meanAngle.map (fun ang => r * Real.sin (ang * Real.pi / 180) / 1000)

/-! ## Object store for the purity/frame claim (C6)

Python passes `xr.DataArray` / `xr.Dataset` objects by reference, and
`rain_depth` ends with `result = depth.copy(); result.name = ...;
result.attrs = {...}` — in-place mutation of the copy. To state that the
input object (and every other pre-existing object) is unchanged, the two
functions are re-embedded against an explicit heap: arithmetic results are
fresh allocations, attribute assignment is an in-place `put`. -/

/-- A heap of Python objects: identifiers with payloads, plus the next fresh
identifier. -/
structure Store (α : Type) where
  objs : List (Nat × α)
  nextId : Nat

/-- First payload bound to an identifier in an association list. -/
def assocFind (j : Nat) : List (Nat × α) → Option α
  | [] => none
  | p :: tl => if p.1 = j then some p.2 else assocFind j tl

/-- Dereference an object identifier. -/
def Store.get (σ : Store α) (i : Nat) : Option α := assocFind i σ.objs

/-- Allocate a fresh object; returns the new store and the new identifier. -/
def Store.alloc (σ : Store α) (o : α) : Store α × Nat :=
  (⟨(σ.nextId, o) :: σ.objs, σ.nextId + 1⟩, σ.nextId)

/-- Mutate the object stored at `i` in place. -/
def Store.put (σ : Store α) (i : Nat) (o : α) : Store α :=
  ⟨σ.objs.map (fun p => if p.1 = i then (i, o) else p), σ.nextId⟩

/-- The mutable state of the result `DataArray` built by `rain_depth`. -/
structure DepthObj where
  vals : List Value
  name : Option String
  attrs : List (String × String)

/-- Heap objects touched by `rain_depth`: the input reflectivity array with
its name and attrs, or a derived depth array. -/
inductive PyObj where
  | src (z : RainArr) (name : Option String) (attrs : List (String × String))
  | arr (d : DepthObj)

/-- Heap objects touched by `compute_qvp`: a sweep dataset or a derived QVP
array. -/
inductive QObj where
  | dset (ds : RadarDS)
  | qarr (q : QvpArr)

/-- Stateful embedding of `rain_depth`: the depth array is a fresh allocation
(xarray arithmetic returns new arrays, keeping the operand's name and dropping
attrs), `result = depth.copy()` allocates again, and the `result.name = ...`
and `result.attrs = ...` assignments mutate only the copy. -/
noncomputable def rain_depth_st (σ : Store PyObj) (zid : Nat) (a b : ℝ) (t : Option ℝ) :
    Except PyErr (Store PyObj × Nat) :=
  match σ.get zid with
  | some (.src z nm _ats) =>
    match rain_depth z a b t with
    | .error e => .error e
    | .ok res =>
      let s1 := σ.alloc (.arr ⟨res.data, nm, []⟩)
      let s2 := s1.1.alloc (.arr ⟨res.data, nm, []⟩)
      let σ2 := s2.1
      let rid := s2.2
      let σ3 := match σ2.get rid with
        | some (.arr d) => σ2.put rid (.arr { d with name := some "precip_depth" })
        | _ => σ2
      let σ4 := match σ3.get rid with
        | some (.arr d) => σ3.put rid (.arr { d with attrs := rainAttrs })
        | _ => σ3
      .ok (σ4, rid)
  | _ => .error (.valueError "rain_depth expects a DataArray")

/-- Stateful embedding of `compute_qvp`: every step (`10 ** (ds[var]/10)`,
`mean`, `assign_coords`, `rename`) returns a new object; only the final result
is allocated, nothing is mutated. -/
noncomputable def compute_qvp_st (σ : Store QObj) (dsid : Nat) (var : String) :
    Except PyErr (Store QObj × Nat) :=
  match σ.get dsid with
  | some (.dset ds) =>
    match compute_qvp ds var with
    | none => .error (.valueError "key error")
    | some q =>
      let s1 := σ.alloc (.qarr q)
      .ok (s1.1, s1.2)
  | _ => .error (.valueError "compute_qvp expects a Dataset")

/-- The store after a call that may have raised (a raise leaves the store as
it was). -/
def afterStore (r : Except PyErr (Store α × Nat)) (σ : Store α) : Store α :=
  match r with
  | .ok (σ2, _) => σ2
  | .error _ => σ

/-! ## Plot-call trace for the figure layout claim (C7) -/

/-- The matplotlib calls `ryzhkov_figure` makes, recorded in order; `α` is the
type of the plotted QVP arrays, and grid positions are `axs[row][col]`. Level
arrays and figure size are elided; colormaps and label texts are kept. -/
inductive PlotCmd (α : Type) where
  | subplots (rows cols : Nat)
  | contourf (row col : Nat) (src : α) (cmap : String)
  | contour (row col : Nat) (src : α)
  | clabel (row col : Nat)
  | setTitle (row col : Nat) (t : String)
  | setXlabel (row col : Nat) (t : String)
  | setYlabel (row col : Nat) (t : String)
  | setYlim (row col : Nat) (lo hi : Int)
  | tickParams (row col : Nat)
  | colorbar (row col : Nat) (label : String)
  | tightLayout
deriving DecidableEq

/-- Embedding of `ryzhkov_figure` as the trace of plotting calls it makes
(demo_functions.py lines 123-242). -/
def ryzhkov_figure (qvp_ref qvp_zdr qvp_rhohv qvp_phidp : α) : List (PlotCmd α) :=
  [.subplots 2 2,
   .contourf 0 0 qvp_ref "ChaseSpectral", .contour 0 0 qvp_ref, .clabel 0 0,
   .setTitle 0 0 "$Z$", .setXlabel 0 0 "", .setYlabel 0 0 "$Height \\ [km]$",
   .setYlim 0 0 0 12, .colorbar 0 0 "$Reflectivity \\ [dBZ]$",
   .contourf 0 1 qvp_zdr "ChaseSpectral", .contour 0 1 qvp_ref, .clabel 0 1,
   .setTitle 0 1 "$Z_{DR}$", .setXlabel 0 1 "", .setYlabel 0 1 "",
   .colorbar 0 1 "$Diff. \\ Reflectivity \\ [dB]$",
   .contourf 1 0 qvp_rhohv "Carbone11", .contour 1 0 qvp_ref, .clabel 1 0,
   .setTitle 1 0 "$\\rho _{HV}$", .setYlabel 1 0 "$Height \\ [km]$",
   .setXlabel 1 0 "$Time \\ [UTC]$", .tickParams 1 0,
   .colorbar 1 0 "$Cross-Correlation \\ Coef.$",
   .contourf 1 1 qvp_phidp "PD17", .contour 1 1 qvp_ref, .clabel 1 1,
   .setTitle 1 1 "$\\theta _{DP}$", .setXlabel 1 1 "$Time \\ [UTC]$",
   .setYlabel 1 1 "", .tickParams 1 1,
   .colorbar 1 1 "$Differential \\ Phase \\ [deg]$",
   .tightLayout]

/-- Whether a plot call is a filled-contour plot. -/
def isContourf : PlotCmd α → Bool
  | .contourf _ _ _ _ => true
  | _ => false

/-! ## concat_sweep_across_vcps (demo_functions.py lines 438-597) -/

/-- One sweep dataset of the DataTree: the `azimuth`/`range` entries of
`Dataset.sizes` (`sizes.get` may return None), the rows along the append
dimension — each row pairs the `vcp_time` coordinate value (datetime64, an
integer) with an abstract integer payload standing for the data variables —
and whether the dataset carries the append-dim coordinate. -/
structure SweepDS where
  azSize : Option Nat
  rgSize : Option Nat
  rows : List (Int × Int)
  hasTimeCoord : Bool
deriving DecidableEq

/-- The DataTree as `concat_sweep_across_vcps` reads it: the group paths that
`DataTree.groups` reports, and the dataset `dtree[path].ds` at each path. -/
structure RadarTree where
  groups : List String
  dsAt : String → SweepDS

/-- Recording a VCP name in the `vcp_nodes` dict: re-assigning an existing key
keeps its position, and only the keys are ever read, so the dict is its
key list with first-occurrence order. -/
def addVcpName (acc : List String) (v : String) : List String :=
  if acc.contains v then acc else acc ++ [v]

/-- The first loop of `concat_sweep_across_vcps`: collect the VCP node names
from the group paths, under `group_prefix` when one is given (`len(parts) >= 2
and parts[0] == group_prefix and parts[1].startswith("VCP-")` with the inner
`len(parts) == 2` check collapses to a two-part match, and likewise the
root-level case to a one-part match). -/
def vcpNamesOf (groups : List String) (gp : Option String) : List String :=
  groups.foldl (fun acc p =>
    let parts := pathParts p
    match gp with
    | some g =>
      match parts with
      | [a, b] => if a == g && strStarts b "VCP-" then addVcpName acc b else acc
      | _ => acc
    | none =>
      match parts with
      | [a] => if strStarts a "VCP-" then addVcpName acc a else acc
      | _ => acc) []

/-- The sweep path (with leading slash) the extraction loop tries first. -/
def sweepPathOf (gp : Option String) (v sweep : String) : String :=
  match gp with
  | some g => "/" ++ g ++ "/" ++ v ++ "/" ++ sweep
  | none => "/" ++ v ++ "/" ++ sweep

/-- The alternative sweep path (no leading slash) tried second. -/
def sweepPathAltOf (gp : Option String) (v sweep : String) : String :=
  match gp with
  | some g => g ++ "/" ++ v ++ "/" ++ sweep
  | none => v ++ "/" ++ sweep

/-- One step of the extraction loop: append the sweep dataset of this VCP to
the found list, or record the VCP as skipped. -/
def sweepStep (dtree : RadarTree) (sweep : String) (gp : Option String)
    (acc : List (String × SweepDS) × List String) (v : String) :
    List (String × SweepDS) × List String :=
  if dtree.groups.contains (sweepPathOf gp v sweep) then
    (acc.1 ++ [(v, dtree.dsAt (sweepPathOf gp v sweep))], acc.2)
  else if dtree.groups.contains (sweepPathAltOf gp v sweep) then
    (acc.1 ++ [(v, dtree.dsAt (sweepPathAltOf gp v sweep))], acc.2)
  else (acc.1, acc.2 ++ [v])

/-- The extraction loop: `(sweep_datasets, skipped_vcps)`. -/
def foundSweepsOf (dtree : RadarTree) (sweep : String) (gp : Option String) :
    List (String × SweepDS) × List String :=
  (vcpNamesOf dtree.groups gp).foldl (sweepStep dtree sweep gp) ([], [])

/-- The dataset `xr.concat` produces: the rows of the inputs in order; the
append-dim coordinate is present when every input carried it (the `append_dim
in concatenated.coords` test of the source). -/
structure ConcatDS where
  rows : List (Int × Int)
  hasTimeCoord : Bool
deriving DecidableEq

/-- Comparison by the append-dim coordinate, as `sortby(append_dim)` sorts
(stable ascending). -/
def rowLe (a b : Int × Int) : Bool := decide (a.1 ≤ b.1)

/-- Concatenation followed by the optional stable time sort. -/
def buildConcat (found : List (String × SweepDS)) (sort_by_time : Bool) : ConcatDS :=
  let rows := found.flatMap (fun p => p.2.rows)
  let ht := found.all (fun p => p.2.hasTimeCoord)
  if sort_by_time && ht then ⟨rows.mergeSort rowLe, ht⟩ else ⟨rows, ht⟩

/-- Embedding of `concat_sweep_across_vcps`. The `append_dim` parameter names
the dimension the rows of the model already lie along; the warning for skipped
VCPs is a side effect, recoverable from `(foundSweepsOf ...).2`. -/
def concat_sweep_across_vcps (dtree : RadarTree) (sweep_name append_dim : String)
    (validate_coords sort_by_time : Bool) (gp : Option String) :
    Except PyErr ConcatDS :=
  let vcpNames := vcpNamesOf dtree.groups gp
  if vcpNames.isEmpty then
    .error (.valueError "No VCP nodes found in DataTree.")
  else
    match (foundSweepsOf dtree sweep_name gp).1 with
    | [] => .error (.valueError "Sweep not found in any VCP nodes.")
    | d0 :: rest =>
      if validate_coords && !rest.isEmpty then
        match rest.find? (fun p =>
            !(p.2.azSize == d0.2.azSize) || !(p.2.rgSize == d0.2.rgSize)) with
        | some _ => .error (.valueError "Coordinate mismatch")
        | none => .ok (buildConcat (d0 :: rest) sort_by_time)
      else .ok (buildConcat (d0 :: rest) sort_by_time)

/-- A DataTree whose two VCP groups both hold `sweep_0` but with different
azimuth sizes (2 vs 3): the C4 counterexample input. -/
def mismatchTree : RadarTree :=
  ⟨["/", "/VCP-11", "/VCP-11/sweep_0", "/VCP-21", "/VCP-21/sweep_0"],
   fun p =>
     if p == "/VCP-11/sweep_0" then ⟨some 2, some 4, [(1, 10)], true⟩
     else if p == "/VCP-21/sweep_0" then ⟨some 3, some 4, [(0, 20)], true⟩
     else ⟨none, none, [], false⟩⟩

/-- A DataTree whose two VCP groups hold compatible `sweep_0` datasets with
out-of-order times: the C4 witness input. -/
def okTree : RadarTree :=
  ⟨["/", "/VCP-11", "/VCP-11/sweep_0", "/VCP-21", "/VCP-21/sweep_0"],
   fun p =>
     if p == "/VCP-11/sweep_0" then ⟨some 2, some 4, [(5, 50), (1, 11)], true⟩
     else if p == "/VCP-21/sweep_0" then ⟨some 2, some 4, [(3, 30)], true⟩
     else ⟨none, none, [], false⟩⟩

/-! ## NEXRAD file listing (demo_functions.py lines 245-299 and 345-406) -/

/-- A Python `datetime` (fields as CPython stores them; CPython restricts
`year` to 1..9999, `month` to 1..12, `day` to the month length, `hour` < 24,
`minute`/`second` < 60). -/
structure PyDateTime where
  year : Nat
  month : Nat
  day : Nat
  hour : Nat
  minute : Nat
  second : Nat
deriving DecidableEq

/-- Mixed-radix encoding of a datetime, strictly monotone in the lexicographic
field order whenever `month ≤ 12`, `day ≤ 31`, `hour ≤ 23` and
`minute`, `second ≤ 59` — bounds every datetime CPython constructs satisfies —
so comparing keys is CPython's datetime comparison. -/
def dtKey (d : PyDateTime) : Nat :=
  d.year * 35942400 + d.month * 2764800 + d.day * 86400 +
    d.hour * 3600 + d.minute * 60 + d.second

/-- Python `datetime <=`. -/
def dtLe (a b : PyDateTime) : Bool := decide (dtKey a ≤ dtKey b)

/-- The field bounds that make `dtKey` faithful. -/
def dtBoundedB (d : PyDateTime) : Bool :=
  d.month ≤ 12 && d.day ≤ 31 && d.hour ≤ 23 && d.minute ≤ 59 && d.second ≤ 59

/-- Gregorian leap year. -/
def isLeapYear (y : Nat) : Bool :=
  y % 4 = 0 && (!(y % 100 = 0) || y % 400 = 0)

/-- Days in a month (defaulting to 31 off the calendar domain). -/
def daysInMonth (y m : Nat) : Nat :=
  if m = 2 then (if isLeapYear y then 29 else 28)
  else if m = 4 ∨ m = 6 ∨ m = 9 ∨ m = 11 then 30
  else 31

/-- `current_dt + timedelta(days=1)`: the time of day is kept, the date rolls
over month and year ends. -/
def nextDay (d : PyDateTime) : PyDateTime :=
  if d.day + 1 ≤ daysInMonth d.year d.month then { d with day := d.day + 1 }
  else if d.month = 12 then { d with year := d.year + 1, month := 1, day := 1 }
  else { d with month := d.month + 1, day := 1 }

/-- Iterated `nextDay`. -/
def addDays (d : PyDateTime) : Nat → PyDateTime
  | 0 => d
  | k + 1 => addDays (nextDay d) k

/-- Zero-padded two-digit field of `strftime`. -/
def pad2 (n : Nat) : String := (if n < 10 then "0" else "") ++ toString n

/-- Zero-padded `%Y` (four digits, more for years above 9999). -/
def pad4 (n : Nat) : String :=
  (if n < 10 then "000" else if n < 100 then "00" else if n < 1000 then "0" else "")
    ++ toString n

/-- `current_dt.strftime("%Y/%m/%d")`. -/
def dateDirOf (d : PyDateTime) : String :=
  pad4 d.year ++ "/" ++ pad2 d.month ++ "/" ++ pad2 d.day

/-- The S3 bucket holding NEXRAD Level II volumes. -/
def nexradBucket : String := "unidata-nexrad-level2"

/-- The glob prefix `f"{base_path}{date_str}/{radar}/{radar}"` (fsspec strips
the `s3://` protocol from the keys it returns, so keys are bucket-relative). -/
def globPfxOf (radar : String) (d : PyDateTime) : String :=
  nexradBucket ++ "/" ++ dateDirOf d ++ "/" ++ radar ++ "/" ++ radar

/-- Model of `fs.glob(prefix + "*")` against a bucket holding `fsKeys`: the
keys starting with the prefix whose remainder contains no `/` (the glob `*`
does not cross directory levels). -/
def globKeys (fsKeys : List String) (pfx : String) : List String :=
  fsKeys.filter (fun k =>
    listStarts k.toList pfx.toList
      && (k.toList.drop pfx.toList.length).all (· ≠ '/'))

/-- Numeric value of a digit character. -/
def digitVal (c : Char) : Nat := c.toNat - 48

/-- `datetime.strptime(filename[len(radar):len(radar)+15], "%Y%m%d_%H%M%S")`
together with the datetime constructor's range checks, on the canonical
fixed-width form (CPython's strptime additionally accepts some non-zero-padded
variants, which never occur in the bucket). -/
def parseStamp (radar fname : String) : Option PyDateTime :=
  match (fname.toList.drop radar.toList.length).take 15 with
  | [y1, y2, y3, y4, m1, m2, d1, d2, u, h1, h2, n1, n2, s1, s2] =>
    if ([y1, y2, y3, y4, m1, m2, d1, d2, h1, h2, n1, n2, s1, s2].all Char.isDigit)
        && u = '_' then
      let y := ((digitVal y1 * 10 + digitVal y2) * 10 + digitVal y3) * 10 + digitVal y4
      let mo := digitVal m1 * 10 + digitVal m2
      let da := digitVal d1 * 10 + digitVal d2
      let h := digitVal h1 * 10 + digitVal h2
      let mi := digitVal n1 * 10 + digitVal n2
      let s := digitVal s1 * 10 + digitVal s2
      if 1 ≤ y && (1 ≤ mo && mo ≤ 12) && (1 ≤ da && da ≤ daysInMonth y mo)
          && h ≤ 23 && mi ≤ 59 && s ≤ 59 then
        some ⟨y, mo, da, h, mi, s⟩
      else none
    else none
  | _ => none

/-- The body of one day-iteration of `list_nexrad_files`: glob the date/radar
prefix, parse each filename's timestamp, keep the in-window ones with `s3://`
prepended (unparsable filenames are skipped by the `except: continue`). -/
def dayFiles (fsKeys : List String) (radar : String) (st en cur : PyDateTime) :
    List String :=
  (globKeys fsKeys (globPfxOf radar cur)).filterMap (fun path =>
    match parseStamp radar (lastPart path) with
    | some ft => if dtLe st ft && dtLe ft en then some ("s3://" ++ path) else none
    | none => none)

/-- The `while current_dt <= end_dt` loop over days, fuelled; the fuel used
below strictly exceeds the number of iterations the guard can allow. -/
def dayLoop (step : PyDateTime → List α) (en : PyDateTime) :
    Nat → PyDateTime → List α
  | 0, _ => []
  | f + 1, cur =>
    if dtLe cur en then step cur ++ dayLoop step en f (nextDay cur) else []

/-- Embedding of `list_nexrad_files` (the start/end arguments stand for the
datetimes `strptime` parses from the "%Y-%m-%d %H:%M" strings). -/
def list_nexrad_files (fsKeys : List String) (radar : String) (st en : PyDateTime) :
    List String :=
  (dayLoop (dayFiles fsKeys radar st en) en (dtKey en + 1) st).mergeSort strLe

/-- One entry of `list_nexrad_files_with_sizes`: the dict
`{"path": ..., "size": ..., "time": ...}`. -/
structure FileEntry where
  path : String
  size : Nat
  time : PyDateTime
deriving DecidableEq

/-- The directory `f"{base_path}/{date_str}/{radar}"` listed by `fs.ls`. -/
def lsDirOf (radar : String) (d : PyDateTime) : String :=
  nexradBucket ++ "/" ++ dateDirOf d ++ "/" ++ radar

/-- Model of `fs.ls(dir_path, detail=True)` against a bucket of (key, size)
pairs: the entries directly inside the directory. -/
def lsKeys (fsl : List (String × Nat)) (dir : String) : List (String × Nat) :=
  fsl.filter (fun e => parentDir e.1 == dir)

/-- The body of one day-iteration of `list_nexrad_files_with_sizes`:
list the directory, keep filenames starting with the radar code whose parsed
timestamp is in the window. -/
def dayEntries (fsl : List (String × Nat)) (radar : String) (st en cur : PyDateTime) :
    List FileEntry :=
  (lsKeys fsl (lsDirOf radar cur)).filterMap (fun e =>
    if !(strStarts (lastPart e.1) radar) then none
    else
      match parseStamp radar (lastPart e.1) with
      | some ft =>
        if dtLe st ft && dtLe ft en then some ⟨"s3://" ++ e.1, e.2, ft⟩ else none
      | none => none)

/-- `sorted(file_list, key=lambda x: x["time"])`'s comparison. -/
def entryLe (a b : FileEntry) : Bool := dtLe a.time b.time

/-- Embedding of `list_nexrad_files_with_sizes`. -/
def list_nexrad_files_with_sizes (fsl : List (String × Nat)) (radar : String)
    (st en : PyDateTime) : List FileEntry :=
  (dayLoop (dayEntries fsl radar st en) en (dtKey en + 1) st).mergeSort entryLe

/-- The C5 counterexample key: a file of 2011-05-21, 03:00 UTC. -/
def cexKey : String := "unidata-nexrad-level2/2011/05/21/KVNX/KVNX20110521_030000_V06.gz"

/-- The C5 counterexample window start: 2011-05-20 12:00. -/
def cexStart : PyDateTime := ⟨2011, 5, 20, 12, 0, 0⟩

/-- The C5 counterexample window end: 2011-05-21 06:00 (time of day earlier
than the start's, so the day loop never reaches 2011/05/21). -/
def cexEnd : PyDateTime := ⟨2011, 5, 21, 6, 0, 0⟩

/-! ## Theorems -/

/-- C3: for a > 0, b > 0 and a fixed integration time t (minutes),
`rain_depth` returns per-value depth `((10^(z/10))/a)^(1/b) * (t/60)` —
the Z-R rain rate in mm/hr times the integration time in hours — and the
source defaults are a = 200.0, b = 1.6. -/
theorem rain_depth_zr_formula (z : RainArr) (a b t : ℝ) (ha : 0 < a) (hb : 0 < b) :
    rain_depth z a b (some t) =
      .ok { data := z.data.map (fun x => some (zr_depth_closed x a b t)),
            name := "precip_depth", attrs := rainAttrs }
    ∧ rain_depth_default_a = 200 ∧ rain_depth_default_b = 1.6 := by
  refine ⟨?_, by norm_num [rain_depth_default_a], by norm_num [rain_depth_default_b]⟩
  simp only [rain_depth, List.map_map]
  rfl

/-- Witness for C3 at z = 20 dBZ, a = 200, b = 1.6, t = 5 minutes. -/
theorem rain_depth_zr_formula_witness :
    (0:ℝ) < 200 ∧ (0:ℝ) < 1.6 ∧
      (rain_depth ⟨[20], ["vcp_time"], [0]⟩ 200 1.6 (some 5) =
          .ok { data := [(20:ℝ)].map (fun x => some (zr_depth_closed x 200 1.6 5)),
                name := "precip_depth", attrs := rainAttrs }
        ∧ rain_depth_default_a = 200 ∧ rain_depth_default_b = 1.6) :=
  ⟨by norm_num, by norm_num,
    rain_depth_zr_formula ⟨[20], ["vcp_time"], [0]⟩ 200 1.6 5 (by norm_num) (by norm_num)⟩

/-- C8: `rain_depth` raises ValueError exactly when `t` is None and the input
lacks a `vcp_time` dimension; with `t` provided it never raises. -/
theorem rain_depth_valueerror_iff (z : RainArr) (a b : ℝ) (t : Option ℝ) :
    isErr (rain_depth z a b t) = true ↔ t = none ∧ "vcp_time" ∉ z.dims := by
  cases t with
  | some tv => simp [rain_depth, isErr]
  | none =>
    by_cases h : "vcp_time" ∈ z.dims <;> simp [rain_depth, isErr, h]

/-- C1 (code bug): with `t=None` and the irregular scan times 0 h, 1 h, 3 h
(actual gaps 1 h and 2 h), `rain_depth` multiplies the rate of every timestep
by the single median gap 1.5 h, not by the actual neighbouring gap: the first
depth is `rate * 1.5`, which differs from both `rate * 1` and `rate * 2`. -/
theorem rain_depth_uses_median_not_actual_diffs :
    (pairwiseDiffs ([0, 3600, 10800] : List ℚ)).map (fun d => d / 3600) = [1, 2]
    ∧ rain_depth ⟨[20, 20, 20], ["vcp_time"], [0, 3600, 10800]⟩ 200 1.6 none =
        .ok { data := [some (rain_rate_of 200 1.6 20 * ((3:ℝ)/2)),
                       some (rain_rate_of 200 1.6 20 * ((3:ℝ)/2)),
                       some (rain_rate_of 200 1.6 20 * ((3:ℝ)/2))],
              name := "precip_depth", attrs := rainAttrs }
    ∧ rain_rate_of 200 1.6 20 * ((3:ℝ)/2) ≠ rain_rate_of 200 1.6 20 * 1
    ∧ rain_rate_of 200 1.6 20 * ((3:ℝ)/2) ≠ rain_rate_of 200 1.6 20 * 2 := by
  have hdiffs : (pairwiseDiffs ([0, 3600, 10800] : List ℚ)).map (fun d => d / 3600)
      = [1, 2] := by
    norm_num [pairwiseDiffs]
  have hmed : npMedian [1, 2] = some ((3:ℚ)/2) := by
    norm_num [npMedian, sortRat, insertRat]
  have hpos : 0 < rain_rate_of 200 1.6 20 := by
    unfold rain_rate_of
    apply Real.rpow_pos_of_pos
    positivity
  refine ⟨hdiffs, ?_, ?_, ?_⟩
  · simp only [rain_depth, hdiffs, hmed]
    norm_num [rain_rate_of]
  · intro hc
    have := mul_left_cancel₀ (ne_of_gt hpos) hc
    norm_num at this
  · intro hc
    have := mul_left_cancel₀ (ne_of_gt hpos) hc
    norm_num at this

/-- C2: when the variable's units start with "dB", `compute_qvp` linearizes,
averages azimuthally skipping NaNs, and converts back to dB; otherwise it
takes the plain azimuthal mean. -/
theorem compute_qvp_db_aware (ds : RadarDS) (var : String) (va : VarArr) (units : String)
    (hv : lookupStr ds.vars var = some va)
    (hu : lookupStr va.attrs "units" = some units) :
    (compute_qvp ds var).map (fun q => q.data) =
      some (if strStarts units "dB" then va.data.map qvp_db_cell
            else va.data.map qvp_plain_cell) := by
  by_cases h : strStarts units "dB" = true <;>
    simp [compute_qvp, hv, hu, h, qvp_db_cell, qvp_plain_cell, List.map_map, vmap]

/-- Witness for C2: a two-gate, two-azimuth dataset carrying a dBZ variable. -/
theorem compute_qvp_db_aware_witness :
    lookupStr ([("DBZH", ⟨[("units", "dBZ")], [[some 1, some 2], [none, some 3]]⟩)] :
        List (String × VarArr)) "DBZH" =
      some ⟨[("units", "dBZ")], [[some 1, some 2], [none, some 3]]⟩
    ∧ (compute_qvp ⟨[("DBZH", ⟨[("units", "dBZ")], [[some 1, some 2], [none, some 3]]⟩)],
          [some 10], [100, 200]⟩ "DBZH").map (fun q => q.data) =
        some (if strStarts "dBZ" "dB" then
                ([[some 1, some 2], [none, some 3]] : List (List Value)).map qvp_db_cell
              else ([[some 1, some 2], [none, some 3]] : List (List Value)).map qvp_plain_cell) :=
  ⟨rfl, compute_qvp_db_aware
    ⟨[("DBZH", ⟨[("units", "dBZ")], [[some 1, some 2], [none, some 3]]⟩)], [some 10], [100, 200]⟩
    "DBZH" ⟨[("units", "dBZ")], [[some 1, some 2], [none, some 3]]⟩ "dBZ" rfl rfl⟩

/-- C10: the QVP's vertical coordinate is
`range * sin(mean(sweep_fixed_angle) * π/180) / 1000`, the `range` dimension is
renamed to `height`, and the variable to `qvp_<var>`. -/
theorem compute_qvp_height_coordinate (ds : RadarDS) (var : String) (va : VarArr)
    (units : String) (hv : lookupStr ds.vars var = some va)
    (hu : lookupStr va.attrs "units" = some units) :
    (compute_qvp ds var).map (fun q => (q.coordVals, q.dimName, q.name)) =
      some (ds.range.map (height_of (meanSkipna ds.sweep_fixed_angle)),
            "height", "qvp_" ++ var) := by
  simp only [compute_qvp, hv, hu, Option.map_some]
  refine congrArg some (Prod.ext ?_ rfl)
  simp only [height_of, vmap, List.map_map]
  refine List.map_congr_left (fun r _ => ?_)
  cases meanSkipna ds.sweep_fixed_angle with
  | none => rfl
  | some ang =>
    simp only [height_of, Option.map, Option.some.injEq]

/-- Witness for C10 on the same concrete dataset as the C2 witness. -/
theorem compute_qvp_height_coordinate_witness :
    lookupStr ([("DBZH", ⟨[("units", "dBZ")], [[some 1, some 2], [none, some 3]]⟩)] :
        List (String × VarArr)) "DBZH" =
      some ⟨[("units", "dBZ")], [[some 1, some 2], [none, some 3]]⟩
    ∧ (compute_qvp ⟨[("DBZH", ⟨[("units", "dBZ")], [[some 1, some 2], [none, some 3]]⟩)],
          [some 10], [100, 200]⟩ "DBZH").map (fun q => (q.coordVals, q.dimName, q.name)) =
        some (([100, 200] : List ℝ).map (height_of (meanSkipna [some 10])),
              "height", "qvp_" ++ "DBZH") :=
  ⟨rfl, compute_qvp_height_coordinate
    ⟨[("DBZH", ⟨[("units", "dBZ")], [[some 1, some 2], [none, some 3]]⟩)], [some 10], [100, 200]⟩
    "DBZH" ⟨[("units", "dBZ")], [[some 1, some 2], [none, some 3]]⟩ "dBZ" rfl rfl⟩

/-- Key fact about in-place update: looking up any other identifier is
unaffected. -/
theorem assocFind_put_ne (l : List (Nat × α)) (i : Nat) (o : α) (j : Nat) (h : j ≠ i) :
    assocFind j (l.map (fun p => if p.1 = i then (i, o) else p)) = assocFind j l := by
  induction l with
  | nil => rfl
  | cons p tl ih =>
    by_cases hpi : p.1 = i
    · simp [assocFind, hpi, Ne.symm h, ih]
    · by_cases hpj : p.1 = j <;> simp [assocFind, hpi, hpj, h, ih]

/-- Update of a bound identifier replaces only that binding. -/
theorem assocFind_put_eq (l : List (Nat × α)) (i : Nat) (o w : α)
    (h : assocFind i l = some w) :
    assocFind i (l.map (fun p => if p.1 = i then (i, o) else p)) = some o := by
  induction l with
  | nil => simp [assocFind] at h
  | cons p tl ih =>
    by_cases hpi : p.1 = i
    · simp [assocFind, hpi]
    · simp only [assocFind, if_neg hpi] at h
      simp [assocFind, hpi, ih h]

/-- `put i` leaves every `get j`, `j ≠ i`, unchanged. -/
theorem store_get_put_ne (σ : Store α) (i : Nat) (o : α) (j : Nat) (h : j ≠ i) :
    (σ.put i o).get j = σ.get j := by
  simp only [Store.put, Store.get]
  exact assocFind_put_ne _ _ _ _ h

/-- `put i` on a bound identifier makes `get i` return the new object. -/
theorem store_get_put_eq (σ : Store α) (i : Nat) (o w : α) (h : σ.get i = some w) :
    (σ.put i o).get i = some o := by
  simp only [Store.put, Store.get] at h ⊢
  exact assocFind_put_eq _ _ _ _ h

/-- Allocation leaves every previously valid `get j` unchanged. -/
theorem store_get_alloc_lt (σ : Store α) (o : α) (j : Nat) (h : j < σ.nextId) :
    (σ.alloc o).1.get j = σ.get j := by
  simp only [Store.alloc, Store.get, assocFind]
  rw [if_neg (Nat.ne_of_gt h)]

/-- Dereferencing a fresh allocation yields the allocated object. -/
theorem store_get_alloc_self (σ : Store α) (o : α) :
    (σ.alloc o).1.get (σ.alloc o).2 = some o := by
  simp [Store.alloc, Store.get, assocFind]

/-- The next fresh identifier after an allocation. -/
theorem store_alloc_nextId (σ : Store α) (o : α) :
    (σ.alloc o).1.nextId = σ.nextId + 1 := rfl

/-- C6: `rain_depth` and `compute_qvp` are pure with respect to their inputs:
after either call every pre-existing heap object — in particular the input
DataArray/Dataset with its values, coordinates, name and attributes — is
unchanged (`rain_depth` mutates only the fresh copy of the depth array;
`compute_qvp` allocates without mutating); determinism holds definitionally,
the embedding being a function of the store. -/
theorem rain_depth_compute_qvp_frame (σa : Store PyObj) (σq : Store QObj)
    (zid dsid : Nat) (a b : ℝ) (t : Option ℝ) (var : String) (j k : Nat)
    (hj : j < σa.nextId) (hk : k < σq.nextId) :
    (afterStore (rain_depth_st σa zid a b t) σa).get j = σa.get j
    ∧ (afterStore (compute_qvp_st σq dsid var) σq).get k = σq.get k := by
  constructor
  · unfold rain_depth_st
    cases hz : σa.get zid with
    | none => simp [afterStore]
    | some o =>
      cases o with
      | arr d => simp [afterStore]
      | src z nm ats =>
        cases hr : rain_depth z a b t with
        | error e => simp [afterStore, hr]
        | ok res =>
          simp only [hr]
          have hself : ((σa.alloc (.arr ⟨res.data, nm, []⟩)).1.alloc
              (.arr ⟨res.data, nm, []⟩)).1.get
                ((σa.alloc (.arr ⟨res.data, nm, []⟩)).1.alloc
                  (.arr ⟨res.data, nm, []⟩)).2
              = some (.arr ⟨res.data, nm, []⟩) := store_get_alloc_self _ _
          simp only [afterStore, hself]
          have hput : (((σa.alloc (.arr ⟨res.data, nm, []⟩)).1.alloc
              (.arr ⟨res.data, nm, []⟩)).1.put
                ((σa.alloc (.arr ⟨res.data, nm, []⟩)).1.alloc
                  (.arr ⟨res.data, nm, []⟩)).2
                (.arr { vals := res.data, name := some "precip_depth", attrs := [] })).get
                ((σa.alloc (.arr ⟨res.data, nm, []⟩)).1.alloc
                  (.arr ⟨res.data, nm, []⟩)).2
              = some (.arr { vals := res.data, name := some "precip_depth", attrs := [] }) :=
            store_get_put_eq _ _ _ _ hself
          simp only [hput]
          have hridj : j ≠ ((σa.alloc (.arr ⟨res.data, nm, []⟩)).1.alloc
              (.arr ⟨res.data, nm, []⟩)).2 := by
            show j ≠ σa.nextId + 1
            omega
          rw [store_get_put_ne _ _ _ _ hridj, store_get_put_ne _ _ _ _ hridj,
            store_get_alloc_lt _ _ _ (show j < σa.nextId + 1 by omega),
            store_get_alloc_lt _ _ _ hj]
  · unfold compute_qvp_st
    cases hd : σq.get dsid with
    | none => simp [afterStore]
    | some o =>
      cases o with
      | qarr q => simp [afterStore]
      | dset ds =>
        cases hq : compute_qvp ds var with
        | none => simp [afterStore, hq]
        | some q =>
          simp only [hq, afterStore]
          rw [store_get_alloc_lt _ _ _ hk]

/-- Witness for C6 on concrete one-object stores. -/
theorem rain_depth_compute_qvp_frame_witness :
    (0 < (Store.mk [(0, PyObj.src ⟨[20], ["vcp_time"], [0]⟩ none [])] 1).nextId)
    ∧ (0 < (Store.mk [(0, QObj.dset ⟨[], [], []⟩)] 1).nextId)
    ∧ ((afterStore (rain_depth_st ⟨[(0, PyObj.src ⟨[20], ["vcp_time"], [0]⟩ none [])], 1⟩
          0 200 1.6 (some 5)) ⟨[(0, PyObj.src ⟨[20], ["vcp_time"], [0]⟩ none [])], 1⟩).get 0
        = (Store.mk [(0, PyObj.src ⟨[20], ["vcp_time"], [0]⟩ none [])] 1).get 0
      ∧ (afterStore (compute_qvp_st ⟨[(0, QObj.dset ⟨[], [], []⟩)], 1⟩ 0 "DBZH")
          ⟨[(0, QObj.dset ⟨[], [], []⟩)], 1⟩).get 0
        = (Store.mk [(0, QObj.dset ⟨[], [], []⟩)] 1).get 0) :=
  ⟨by norm_num, by norm_num,
    rain_depth_compute_qvp_frame
      ⟨[(0, PyObj.src ⟨[20], ["vcp_time"], [0]⟩ none [])], 1⟩
      ⟨[(0, QObj.dset ⟨[], [], []⟩)], 1⟩ 0 0 200 1.6 (some 5) "DBZH" 0 0
      (by norm_num) (by norm_num)⟩

/-- C7: `ryzhkov_figure` opens a 2-by-2 grid of axes and places exactly four
filled-contour plots, one per input, at the fixed positions (0,0) reflectivity,
(0,1) differential reflectivity, (1,0) cross-correlation coefficient, (1,1)
differential phase. -/
theorem ryzhkov_figure_2x2_layout (α : Type) (qr qz qh qp : α) :
    (ryzhkov_figure qr qz qh qp).filter isContourf =
      [.contourf 0 0 qr "ChaseSpectral", .contourf 0 1 qz "ChaseSpectral",
       .contourf 1 0 qh "Carbone11", .contourf 1 1 qp "PD17"]
    ∧ (ryzhkov_figure qr qz qh qp).head? = some (.subplots 2 2) :=
  ⟨rfl, rfl⟩

/-- The skipped-VCPs accumulator of the extraction loop: exactly the VCPs
whose sweep path is present under neither form. -/
theorem foundSweeps_skipped_aux (dtree : RadarTree) (sw : String) (gp : Option String) :
    ∀ (names : List String) (acc : List (String × SweepDS) × List String),
    (names.foldl (sweepStep dtree sw gp) acc).2
      = acc.2 ++ names.filter (fun v =>
          !(dtree.groups.contains (sweepPathOf gp v sw))
            && !(dtree.groups.contains (sweepPathAltOf gp v sw))) := by
  intro names
  induction names with
  | nil => intro acc; simp
  | cons v tl ih =>
    intro acc
    simp only [List.foldl_cons, List.filter_cons]
    by_cases h1 : sweepPathOf gp v sw ∈ dtree.groups
    · simp [sweepStep, h1, ih]
    · by_cases h2 : sweepPathAltOf gp v sw ∈ dtree.groups
      · simp [sweepStep, h1, h2, ih]
      · simp [sweepStep, h1, h2, ih]

/-- Unfolding of `concat_sweep_across_vcps` when at least one sweep was
found. -/
theorem concat_cases_aux (dtree : RadarTree) (sw dim : String) (val sortB : Bool)
    (gp : Option String) (d0 : String × SweepDS) (rest : List (String × SweepDS))
    (hn : ¬((vcpNamesOf dtree.groups gp).isEmpty = true))
    (hf : (foundSweepsOf dtree sw gp).1 = d0 :: rest) :
    concat_sweep_across_vcps dtree sw dim val sortB gp =
      (if (val && !rest.isEmpty) = true then
        match rest.find? (fun p =>
            !(p.2.azSize == d0.2.azSize) || !(p.2.rgSize == d0.2.rgSize)) with
        | some _ => .error (.valueError "Coordinate mismatch")
        | none => .ok (buildConcat (d0 :: rest) sortB)
      else .ok (buildConcat (d0 :: rest) sortB)) := by
  unfold concat_sweep_across_vcps
  rw [if_neg hn, hf]

/-- C9: `concat_sweep_across_vcps` raises ValueError exactly when (i) no
VCP-* group exists (under the prefix, if given), (ii) the sweep is found in no
VCP, or (iii) validation is on, at least two sweeps were found, and some
sweep's azimuth or range size differs from the first one's; and the skipped
list — the VCPs merely lacking the sweep, warned about rather than raising —
is exactly the VCPs whose sweep path is absent in both forms. -/
theorem concat_valueerror_conditions (dtree : RadarTree) (sw dim : String)
    (val sortB : Bool) (gp : Option String) :
    (isErr (concat_sweep_across_vcps dtree sw dim val sortB gp) = true ↔
      vcpNamesOf dtree.groups gp = []
      ∨ (vcpNamesOf dtree.groups gp ≠ [] ∧ (foundSweepsOf dtree sw gp).1 = [])
      ∨ (val = true ∧ ∃ d0 rest, (foundSweepsOf dtree sw gp).1 = d0 :: rest ∧ rest ≠ []
          ∧ ∃ p ∈ rest, p.2.azSize ≠ d0.2.azSize ∨ p.2.rgSize ≠ d0.2.rgSize))
    ∧ (foundSweepsOf dtree sw gp).2 =
        (vcpNamesOf dtree.groups gp).filter (fun v =>
          !(dtree.groups.contains (sweepPathOf gp v sw))
            && !(dtree.groups.contains (sweepPathAltOf gp v sw))) := by
  constructor
  · by_cases hn : vcpNamesOf dtree.groups gp = []
    · have hisempty : concat_sweep_across_vcps dtree sw dim val sortB gp =
          .error (.valueError "No VCP nodes found in DataTree.") := by
        unfold concat_sweep_across_vcps
        rw [if_pos (by simpa [List.isEmpty_iff] using hn)]
      simp [hisempty, isErr, hn]
    · have hne : ¬ ((vcpNamesOf dtree.groups gp).isEmpty = true) := by
        simpa [List.isEmpty_iff] using hn
      cases hf : (foundSweepsOf dtree sw gp).1 with
      | nil =>
        have hnofound : concat_sweep_across_vcps dtree sw dim val sortB gp =
            .error (.valueError "Sweep not found in any VCP nodes.") := by
          unfold concat_sweep_across_vcps
          rw [if_neg hne, hf]
        simp [hnofound, isErr, hn]
      | cons d0 rest =>
        rw [concat_cases_aux dtree sw dim val sortB gp d0 rest hne hf]
        by_cases hval : (val && !rest.isEmpty) = true
        · rw [if_pos hval]
          have hva : val = true := by
            revert hval; cases val <;> simp
          have hrne2 : rest ≠ [] := by
            intro h0
            rw [h0] at hval
            simp at hval
          cases hfind : rest.find? (fun p =>
              !(p.2.azSize == d0.2.azSize) || !(p.2.rgSize == d0.2.rgSize)) with
          | some w =>
            apply iff_of_true (by rfl)
            refine Or.inr (Or.inr ⟨hva, d0, rest, rfl, hrne2, w,
              List.mem_of_find?_eq_some hfind, ?_⟩)
            have hw := List.find?_some hfind
            simpa using hw
          | none =>
            apply iff_of_false (by simp [isErr])
            rintro (h1 | ⟨_, h2⟩ | ⟨hv3, d0', rest', heq, hrne', p, hp, hne2⟩)
            · exact hn h1
            · simp at h2
            · injection heq with he1 he2
              subst he2
              have hnone := List.find?_eq_none.mp hfind p hp
              rw [← he1] at hne2
              simp at hnone
              rcases hne2 with h | h
              · exact h hnone.1
              · exact h hnone.2
        · rw [if_neg hval]
          apply iff_of_false (by simp [isErr])
          rintro (h1 | ⟨_, h2⟩ | ⟨hv3, d0', rest', heq, hrne', _⟩)
          · exact hn h1
          · simp at h2
          · injection heq with he1 he2
            subst he2
            apply hval
            rw [hv3]
            simpa using hrne'
  · simpa [foundSweepsOf] using
      foundSweeps_skipped_aux dtree sw gp (vcpNamesOf dtree.groups gp) ([], [])

/-- C4 counterexample: a DataTree with a VCP-* group holding `sweep_0` (so
the claim's hypothesis holds) on which the default call raises ValueError —
its second VCP has azimuth size 3 instead of 2 — instead of returning the
concatenated series. -/
theorem concat_default_raises_on_size_mismatch :
    (vcpNamesOf mismatchTree.groups none = ["VCP-11", "VCP-21"]
      ∧ mismatchTree.groups.contains (sweepPathOf none "VCP-11" "sweep_0") = true)
    ∧ isErr (concat_sweep_across_vcps mismatchTree "sweep_0" "vcp_time" true true none)
        = true := by
  refine ⟨⟨?_, ?_⟩, ?_⟩ <;> decide

/-- Transitivity of the row comparison. -/
theorem rowLe_trans : ∀ (a b c : Int × Int),
    rowLe a b = true → rowLe b c = true → rowLe a c = true := by
  intro a b c
  simp only [rowLe, decide_eq_true_eq]
  omega

/-- Totality of the row comparison. -/
theorem rowLe_total : ∀ (a b : Int × Int), (rowLe a b || rowLe b a) = true := by
  intro a b
  simp only [rowLe, Bool.or_eq_true, decide_eq_true_eq]
  omega

/-- C4 (amended): when the default call succeeds — which additionally requires
that every found sweep matches the first sweep's azimuth/range sizes (default
validation) and carries the `vcp_time` coordinate — the result is the
concatenation along `vcp_time` of the sweep's dataset from every VCP group
containing it, stably sorted by nondecreasing `vcp_time`; with
`sort_by_time=False` the sort step is skipped. -/
theorem concat_sweep_sorted_concat (dtree : RadarTree) (x : String × SweepDS)
    (rest : List (String × SweepDS))
    (hfound : (foundSweepsOf dtree "sweep_0" none).1 = x :: rest)
    (hsz : ∀ p ∈ x :: rest, p.2.azSize = x.2.azSize ∧ p.2.rgSize = x.2.rgSize)
    (htc : ∀ p ∈ x :: rest, p.2.hasTimeCoord = true) :
    concat_sweep_across_vcps dtree "sweep_0" "vcp_time" true true none =
      .ok ⟨((x :: rest).flatMap (fun p => p.2.rows)).mergeSort rowLe, true⟩
    ∧ List.Pairwise (fun a b : Int × Int => a.1 ≤ b.1)
        (((x :: rest).flatMap (fun p => p.2.rows)).mergeSort rowLe)
    ∧ (((x :: rest).flatMap (fun p => p.2.rows)).mergeSort rowLe).Perm
        ((x :: rest).flatMap (fun p => p.2.rows))
    ∧ concat_sweep_across_vcps dtree "sweep_0" "vcp_time" true false none =
        .ok ⟨(x :: rest).flatMap (fun p => p.2.rows), true⟩ := by
  have hnames : ¬ ((vcpNamesOf dtree.groups none).isEmpty = true) := by
    intro h0
    have h0' : vcpNamesOf dtree.groups none = [] := by simpa [List.isEmpty_iff] using h0
    rw [foundSweepsOf, h0'] at hfound
    simp at hfound
  have hfind : rest.find? (fun p =>
      !(p.2.azSize == x.2.azSize) || !(p.2.rgSize == x.2.rgSize)) = none := by
    apply List.find?_eq_none.mpr
    intro p hp
    have h := hsz p (List.mem_cons_of_mem _ hp)
    simp [h.1, h.2]
  have hall : (x :: rest).all (fun p => p.2.hasTimeCoord) = true :=
    List.all_eq_true.mpr (fun p hp => htc p hp)
  have hok : ∀ sb : Bool,
      concat_sweep_across_vcps dtree "sweep_0" "vcp_time" true sb none =
        .ok (buildConcat (x :: rest) sb) := by
    intro sb
    rw [concat_cases_aux dtree "sweep_0" "vcp_time" true sb none x rest hnames hfound]
    cases hrest : rest with
    | nil => simp
    | cons r rs =>
      rw [hrest] at hfind
      rw [if_pos (by simp), hfind]
  have hbc : buildConcat (x :: rest) true =
      ⟨((x :: rest).flatMap (fun p => p.2.rows)).mergeSort rowLe, true⟩ := by
    simp [buildConcat, hall]
  have hbc2 : buildConcat (x :: rest) false =
      ⟨(x :: rest).flatMap (fun p => p.2.rows), true⟩ := by
    simp [buildConcat, hall]
  refine ⟨by rw [hok true, hbc], ?_, List.mergeSort_perm _ _, by rw [hok false, hbc2]⟩
  have hp := List.sorted_mergeSort rowLe_trans rowLe_total
    ((x :: rest).flatMap (fun p => p.2.rows))
  exact hp.imp (fun h => by simpa [rowLe] using h)

/-- Witness for C4 (amended) on `okTree`: two compatible VCPs with times
5, 1, 3 whose concatenation gets sorted. -/
theorem concat_sweep_sorted_concat_witness :
    (foundSweepsOf okTree "sweep_0" none).1 =
      ("VCP-11", ⟨some 2, some 4, [(5, 50), (1, 11)], true⟩) ::
        [("VCP-21", ⟨some 2, some 4, [(3, 30)], true⟩)]
    ∧ concat_sweep_across_vcps okTree "sweep_0" "vcp_time" true true none =
        .ok ⟨((("VCP-11", (⟨some 2, some 4, [(5, 50), (1, 11)], true⟩ : SweepDS)) ::
            [("VCP-21", ⟨some 2, some 4, [(3, 30)], true⟩)]).flatMap
              (fun p => p.2.rows)).mergeSort rowLe, true⟩ :=
  ⟨by decide,
    (concat_sweep_sorted_concat okTree
      ("VCP-11", ⟨some 2, some 4, [(5, 50), (1, 11)], true⟩)
      [("VCP-21", ⟨some 2, some 4, [(3, 30)], true⟩)]
      (by decide) (by decide) (by decide)).1⟩

/-- Month lengths never exceed 31. -/
theorem daysInMonth_le31 (y m : Nat) : daysInMonth y m ≤ 31 := by
  unfold daysInMonth
  split_ifs <;> omega

/-- Adding a day preserves the datetime field bounds. -/
theorem nextDay_bounded (d : PyDateTime) (h : dtBoundedB d = true) :
    dtBoundedB (nextDay d) = true := by
  simp only [dtBoundedB, Bool.and_eq_true, decide_eq_true_eq] at h ⊢
  obtain ⟨⟨⟨⟨h1, h2⟩, h3⟩, h4⟩, h5⟩ := h
  have h31 := daysInMonth_le31 d.year d.month
  unfold nextDay
  split_ifs with hd hm <;> dsimp only <;> omega

/-- Adding a day strictly increases the datetime key. -/
theorem dtKey_lt_nextDay (d : PyDateTime) (h : dtBoundedB d = true) :
    dtKey d < dtKey (nextDay d) := by
  simp only [dtBoundedB, Bool.and_eq_true, decide_eq_true_eq] at h
  obtain ⟨⟨⟨⟨h1, h2⟩, h3⟩, h4⟩, h5⟩ := h
  have h31 := daysInMonth_le31 d.year d.month
  unfold nextDay dtKey
  split_ifs with hd hm <;> dsimp only <;> omega

/-- Iterating `nextDay` keeps the bounds and grows the key at least linearly. -/
theorem addDays_key_ge (d : PyDateTime) (h : dtBoundedB d = true) (k : Nat) :
    dtKey d + k ≤ dtKey (addDays d k) ∧ dtBoundedB (addDays d k) = true := by
  induction k generalizing d with
  | zero =>
    rw [show addDays d 0 = d from rfl]
    exact ⟨by omega, h⟩
  | succ n ih =>
    have hb := nextDay_bounded d h
    have hk := dtKey_lt_nextDay d h
    have hrec := ih (nextDay d) hb
    rw [show addDays d (n + 1) = addDays (nextDay d) n from rfl]
    exact ⟨by have := hrec.1; omega, hrec.2⟩

/-- Membership in the fuelled day loop: exactly the items produced on an
in-guard day within fuel range. -/
theorem mem_dayLoop (step : PyDateTime → List α) (en : PyDateTime) :
    ∀ (F : Nat) (cur : PyDateTime), dtBoundedB cur = true →
      ∀ x : α, (x ∈ dayLoop step en F cur ↔
        ∃ k, k < F ∧ dtLe (addDays cur k) en = true ∧ x ∈ step (addDays cur k)) := by
  intro F
  induction F with
  | zero =>
    intro cur hb x
    simp [dayLoop]
  | succ n ih =>
    intro cur hb x
    unfold dayLoop
    by_cases hg : dtLe cur en = true
    · rw [if_pos hg]
      simp only [List.mem_append]
      constructor
      · rintro (hx | hx)
        · exact ⟨0, by omega, hg, hx⟩
        · obtain ⟨k, hk, hle, hmem⟩ := (ih (nextDay cur) (nextDay_bounded cur hb) x).mp hx
          exact ⟨k + 1, by omega, hle, hmem⟩
      · rintro ⟨k, hk, hle, hmem⟩
        cases k with
        | zero => exact Or.inl hmem
        | succ m =>
          exact Or.inr ((ih (nextDay cur) (nextDay_bounded cur hb) x).mpr
            ⟨m, by omega, hle, hmem⟩)
    · rw [if_neg hg]
      constructor
      · intro hx
        exact absurd hx (List.not_mem_nil x)
      · rintro ⟨k, hk, hle, hmem⟩
        exfalso
        apply hg
        have hmono := (addDays_key_ge cur hb k).1
        simp only [dtLe, decide_eq_true_eq] at hle ⊢
        omega

/-- With fuel `dtKey en + 1` the loop is exhaustive: membership no longer
mentions the fuel. -/
theorem mem_dayLoop_full (step : PyDateTime → List α) (en cur : PyDateTime)
    (hb : dtBoundedB cur = true) (x : α) :
    x ∈ dayLoop step en (dtKey en + 1) cur ↔
      ∃ k, dtLe (addDays cur k) en = true ∧ x ∈ step (addDays cur k) := by
  rw [mem_dayLoop step en (dtKey en + 1) cur hb x]
  constructor
  · rintro ⟨k, _, hle, hm⟩
    exact ⟨k, hle, hm⟩
  · rintro ⟨k, hle, hm⟩
    refine ⟨k, ?_, hle, hm⟩
    have := (addDays_key_ge cur hb k).1
    simp only [dtLe, decide_eq_true_eq] at hle
    omega

/-- Membership in one day's glob-and-filter pass of `list_nexrad_files`. -/
theorem mem_dayFiles (fsKeys : List String) (radar : String)
    (st en cur : PyDateTime) (p : String) :
    p ∈ dayFiles fsKeys radar st en cur ↔
      ∃ key ∈ fsKeys,
        (listStarts key.toList (globPfxOf radar cur).toList = true
          ∧ ((key.toList.drop (globPfxOf radar cur).toList.length).all (· ≠ '/')) = true)
        ∧ (∃ ft, parseStamp radar (lastPart key) = some ft
            ∧ dtLe st ft = true ∧ dtLe ft en = true)
        ∧ p = "s3://" ++ key := by
  unfold dayFiles globKeys
  simp only [List.mem_filterMap, List.mem_filter]
  constructor
  · rintro ⟨key, ⟨hmem, hcond⟩, hmap⟩
    rw [Bool.and_eq_true] at hcond
    cases hp : parseStamp radar (lastPart key) with
    | none => simp [hp] at hmap
    | some ft =>
      simp only [hp] at hmap
      by_cases hw : (dtLe st ft && dtLe ft en) = true
      · rw [if_pos hw] at hmap
        rw [Bool.and_eq_true] at hw
        exact ⟨key, hmem, hcond, ⟨ft, hp, hw.1, hw.2⟩,
          (Option.some.inj hmap).symm⟩
      · rw [if_neg hw] at hmap
        exact absurd hmap (by simp)
  · rintro ⟨key, hmem, ⟨hA, hB⟩, ⟨ft, hp, h1, h2⟩, rfl⟩
    refine ⟨key, ⟨hmem, by rw [hA, hB]; rfl⟩, ?_⟩
    simp only [hp]
    rw [if_pos (by rw [h1, h2]; rfl)]

/-- Membership in one day's ls-and-filter pass of
`list_nexrad_files_with_sizes`. -/
theorem mem_dayEntries (fsl : List (String × Nat)) (radar : String)
    (st en cur : PyDateTime) (e : FileEntry) :
    e ∈ dayEntries fsl radar st en cur ↔
      ∃ ks ∈ fsl,
        parentDir ks.1 = lsDirOf radar cur
        ∧ strStarts (lastPart ks.1) radar = true
        ∧ (∃ ft, parseStamp radar (lastPart ks.1) = some ft
            ∧ dtLe st ft = true ∧ dtLe ft en = true
            ∧ e = ⟨"s3://" ++ ks.1, ks.2, ft⟩) := by
  unfold dayEntries lsKeys
  simp only [List.mem_filterMap, List.mem_filter]
  constructor
  · rintro ⟨ks, ⟨hmem, hdir⟩, hmap⟩
    cases hs : strStarts (lastPart ks.1) radar with
    | false => simp [hs] at hmap
    | true =>
      rw [hs] at hmap
      rw [if_neg (by simp)] at hmap
      cases hp : parseStamp radar (lastPart ks.1) with
      | none => simp [hp] at hmap
      | some ft =>
        simp only [hp] at hmap
        by_cases hw : (dtLe st ft && dtLe ft en) = true
        · rw [if_pos hw] at hmap
          rw [Bool.and_eq_true] at hw
          exact ⟨ks, hmem, by simpa using hdir, hs, ft, hp, hw.1, hw.2,
            (Option.some.inj hmap).symm⟩
        · rw [if_neg hw] at hmap
          exact absurd hmap (by simp)
  · rintro ⟨ks, hmem, hdir, hs, ⟨ft, hp, h1, h2, rfl⟩⟩
    refine ⟨ks, ⟨hmem, by simpa using hdir⟩, ?_⟩
    rw [hs]
    rw [if_neg (by simp)]
    simp only [hp]
    rw [if_pos (by rw [h1, h2]; rfl)]

/-- Transitivity of the code-point lexicographic order. -/
theorem charListLe_trans (a : List Char) : ∀ b c : List Char,
    charListLe a b = true → charListLe b c = true → charListLe a c = true := by
  induction a with
  | nil => intro b c h1 h2; rfl
  | cons x xs ih =>
    intro b c h1 h2
    cases b with
    | nil => exact absurd h1 (by simp [charListLe])
    | cons y ys =>
      cases c with
      | nil => exact absurd h2 (by simp [charListLe])
      | cons z zs =>
        simp only [charListLe] at h1 h2 ⊢
        by_cases hxy : x.toNat = y.toNat
        · by_cases hyz : y.toNat = z.toNat
          · rw [if_pos hxy] at h1
            rw [if_pos hyz] at h2
            rw [if_pos (hxy.trans hyz)]
            exact ih ys zs h1 h2
          · rw [if_neg hyz] at h2
            rw [hxy]
            rw [if_neg hyz]
            exact h2
        · rw [if_neg hxy] at h1
          have hx : x.toNat < y.toNat := of_decide_eq_true h1
          by_cases hyz : y.toNat = z.toNat
          · rw [if_neg (by omega : ¬(x.toNat = z.toNat))]
            exact decide_eq_true (by omega)
          · rw [if_neg hyz] at h2
            have hy : y.toNat < z.toNat := of_decide_eq_true h2
            rw [if_neg (by omega : ¬(x.toNat = z.toNat))]
            exact decide_eq_true (by omega)

/-- Totality of the code-point lexicographic order. -/
theorem charListLe_total (a : List Char) : ∀ b : List Char,
    (charListLe a b || charListLe b a) = true := by
  induction a with
  | nil => intro b; rfl
  | cons x xs ih =>
    intro b
    cases b with
    | nil => simp [charListLe]
    | cons y ys =>
      simp only [charListLe]
      by_cases hxy : x.toNat = y.toNat
      · rw [if_pos hxy, if_pos hxy.symm]
        exact ih ys
      · rw [if_neg hxy, if_neg (fun h => hxy h.symm)]
        simp only [Bool.or_eq_true, decide_eq_true_eq]
        omega

/-- Transitivity of `strLe`. -/
theorem strLe_trans : ∀ a b c : String,
    strLe a b = true → strLe b c = true → strLe a c = true :=
  fun a b c h1 h2 => charListLe_trans a.toList b.toList c.toList h1 h2

/-- Totality of `strLe`. -/
theorem strLe_total : ∀ a b : String, (strLe a b || strLe b a) = true :=
  fun a b => charListLe_total a.toList b.toList

/-- Transitivity of `entryLe`. -/
theorem entryLe_trans : ∀ a b c : FileEntry,
    entryLe a b = true → entryLe b c = true → entryLe a c = true := by
  intro a b c
  simp only [entryLe, dtLe, decide_eq_true_eq]
  omega

/-- Totality of `entryLe`. -/
theorem entryLe_total : ∀ a b : FileEntry, (entryLe a b || entryLe b a) = true := by
  intro a b
  simp only [entryLe, dtLe, Bool.or_eq_true, decide_eq_true_eq]
  omega

/-- C5 (amended): among the reported object-storage keys, `list_nexrad_files`
returns — lexicographically sorted — exactly the `s3://`-prefixed keys lying
directly under one of the queried date/radar prefixes (one per 24-hour step
from `start_dt` while the stepped time stays ≤ `end_dt`) whose filename
encodes a timestamp (15 characters after the radar code, `YYYYMMDD_HHMMSS`)
within `[start_dt, end_dt]`; `list_nexrad_files_with_sizes` analogously over
the queried directories, restricted to filenames starting with the radar
code, sorted by parsed time. Keys of a date directory the loop never queries
(when the end's time of day precedes the start's) are omitted. -/
theorem list_nexrad_files_characterization (fsKeys : List String)
    (fsl : List (String × Nat)) (radar : String) (st en : PyDateTime)
    (hb : dtBoundedB st = true) :
    List.Pairwise (fun a b => strLe a b = true) (list_nexrad_files fsKeys radar st en)
    ∧ (∀ p, p ∈ list_nexrad_files fsKeys radar st en ↔
        ∃ key ∈ fsKeys,
          (∃ k, dtLe (addDays st k) en = true
            ∧ listStarts key.toList (globPfxOf radar (addDays st k)).toList = true
            ∧ ((key.toList.drop (globPfxOf radar (addDays st k)).toList.length).all
                (· ≠ '/')) = true)
          ∧ (∃ ft, parseStamp radar (lastPart key) = some ft
              ∧ dtLe st ft = true ∧ dtLe ft en = true)
          ∧ p = "s3://" ++ key)
    ∧ List.Pairwise (fun a b : FileEntry => entryLe a b = true)
        (list_nexrad_files_with_sizes fsl radar st en)
    ∧ (∀ e : FileEntry, e ∈ list_nexrad_files_with_sizes fsl radar st en ↔
        ∃ ks ∈ fsl,
          (∃ k, dtLe (addDays st k) en = true
            ∧ parentDir ks.1 = lsDirOf radar (addDays st k))
          ∧ strStarts (lastPart ks.1) radar = true
          ∧ (∃ ft, parseStamp radar (lastPart ks.1) = some ft
              ∧ dtLe st ft = true ∧ dtLe ft en = true
              ∧ e = ⟨"s3://" ++ ks.1, ks.2, ft⟩)) := by
  refine ⟨?_, ?_, ?_, ?_⟩
  · exact @List.sorted_mergeSort String strLe strLe_trans strLe_total _
  · intro p
    unfold list_nexrad_files
    rw [List.mem_mergeSort, mem_dayLoop_full _ en st hb p]
    constructor
    · rintro ⟨k, hk, hmem⟩
      obtain ⟨key, hkey, hglob, hts, rfl⟩ := (mem_dayFiles _ _ _ _ _ _).mp hmem
      exact ⟨key, hkey, ⟨k, hk, hglob.1, hglob.2⟩, hts, rfl⟩
    · rintro ⟨key, hkey, ⟨k, hk, hg1, hg2⟩, hts, rfl⟩
      exact ⟨k, hk, (mem_dayFiles _ _ _ _ _ _).mpr ⟨key, hkey, ⟨hg1, hg2⟩, hts, rfl⟩⟩
  · exact @List.sorted_mergeSort FileEntry entryLe entryLe_trans entryLe_total _
  · intro e
    unfold list_nexrad_files_with_sizes
    rw [List.mem_mergeSort, mem_dayLoop_full _ en st hb e]
    constructor
    · rintro ⟨k, hk, hmem⟩
      obtain ⟨ks, hks, hdir, hsw, ft, hp, h1, h2, rfl⟩ := (mem_dayEntries _ _ _ _ _ _).mp hmem
      exact ⟨ks, hks, ⟨k, hk, hdir⟩, hsw, ft, hp, h1, h2, rfl⟩
    · rintro ⟨ks, hks, ⟨k, hk, hdir⟩, hsw, ft, hp, h1, h2, rfl⟩
      exact ⟨k, hk, (mem_dayEntries _ _ _ _ _ _).mpr ⟨ks, hks, hdir, hsw, ft, hp, h1, h2, rfl⟩⟩

/-- Witness for C5 (amended) at the concrete window 2011-05-20 00:00 ..
2011-05-20 23:59 over a one-key bucket. -/
theorem list_nexrad_files_characterization_witness :
    dtBoundedB ⟨2011, 5, 20, 0, 0, 0⟩ = true
    ∧ List.Pairwise (fun a b => strLe a b = true)
        (list_nexrad_files ["unidata-nexrad-level2/2011/05/20/KVNX/KVNX20110520_060000_V06.gz"]
          "KVNX" ⟨2011, 5, 20, 0, 0, 0⟩ ⟨2011, 5, 20, 23, 59, 0⟩) :=
  ⟨by decide,
    (list_nexrad_files_characterization
      ["unidata-nexrad-level2/2011/05/20/KVNX/KVNX20110520_060000_V06.gz"] []
      "KVNX" ⟨2011, 5, 20, 0, 0, 0⟩ ⟨2011, 5, 20, 23, 59, 0⟩ (by decide)).1⟩

/-- C5 counterexample: the window 2011-05-20 12:00 .. 2011-05-21 06:00 and a
reported key of 2011-05-21 03:00 — inside the window, and parseable exactly as
the claim describes — which `list_nexrad_files` does not return (it returns
the empty list): the day loop steps 24 h at a time from the start and stops
before ever querying the 2011/05/21 directory. -/
theorem list_nexrad_files_misses_final_date :
    parseStamp "KVNX" (lastPart cexKey) = some ⟨2011, 5, 21, 3, 0, 0⟩
    ∧ dtLe cexStart ⟨2011, 5, 21, 3, 0, 0⟩ = true
    ∧ dtLe (⟨2011, 5, 21, 3, 0, 0⟩ : PyDateTime) cexEnd = true
    ∧ list_nexrad_files [cexKey] "KVNX" cexStart cexEnd = [] := by
  refine ⟨by decide, by decide, by decide, ?_⟩
  have h0 : dayLoop (dayFiles [cexKey] "KVNX" cexStart cexEnd) cexEnd
      (dtKey cexEnd + 1) cexStart = ([] : List String) := by decide
  unfold list_nexrad_files
  rw [h0, List.mergeSort_nil]
